import Mathlib

/-!
Verification development for the custom-source translation pipeline of the
sc-translator repository.

The embedding covers the two functions in
`src/public/translate/custom/translate.ts` (single-text translate, with the
language-fallback retry) and the final revision of
`src/public/web-page-translate/custom/translate.ts` (webpage batch translate,
with the fragment filter, the count check, and the response reconciler).

JS strings are modelled as Lean `String` (a list of unicode scalar values);
the handful of JS string builtins the code uses (`trim`, `split`, `indexOf`,
`startsWith`, `replace(/"/g,'')`, `parseInt(x,10)`) are re-implemented below as
structurally recursive functions on `List Char`, so that every definition
evaluates inside the kernel.  `decodeURIComponent` is a platform builtin
(not part of the repository); the query-string extraction is parameterised by
it, and concrete instances use the identity function, which agrees with
`decodeURIComponent` on escape-free strings.
-/

/-! ## JS string primitives -/

/-- JS `String.prototype.split` with a single-character separator:
`"".split(c) = [""]`, separators delimit possibly-empty pieces. -/
def splitOnChar (sep : Char) : List Char → List (List Char)
  | [] => [[]]
  | c :: cs =>
    let r := splitOnChar sep cs
    if c = sep then [] :: r
    else
      match r with
      | [] => [[c]]
      | x :: xs => (c :: x) :: xs

/-- Split a string at the first occurrence of `sep`
(JS `indexOf` + two `substring` calls); `none` when `sep` does not occur. -/
def breakAtFirst (sep : Char) : List Char → Option (List Char × List Char)
  | [] => none
  | c :: cs =>
    if c = sep then some ([], cs)
    else (breakAtFirst sep cs).map (fun p => (c :: p.1, p.2))

/-- Whitespace recognised by the model of JS `trim`. -/
def isJsWhitespace (c : Char) : Bool := c.isWhitespace

/-- JS `String.prototype.trim` on the character list. -/
def jsTrimList (cs : List Char) : List Char :=
  ((cs.dropWhile isJsWhitespace).reverse.dropWhile isJsWhitespace).reverse

/-- JS `String.prototype.trim`. -/
def jsTrimStr (s : String) : String := String.mk (jsTrimList s.data)

/-- Does `s` start with `pat` (JS `String.prototype.startsWith`)? -/
def strStartsWith : List Char → List Char → Bool
  | _, [] => true
  | [], _ :: _ => false
  | c :: cs, p :: ps => c == p && strStartsWith cs ps

/-- JS `String.prototype.startsWith` on `String`. -/
def jsStartsWith (s pat : String) : Bool := strStartsWith s.data pat.data

/-- JS `s.replace(/"/g, '')`: remove every double-quote character. -/
def stripQuotes (s : String) : String :=
  String.mk (s.data.filter (fun c => !(c == '"')))

/-- Decimal digit value of a character, `none` for non-digits. -/
def digitVal (c : Char) : Option Nat :=
  if '0' ≤ c && c ≤ '9' then some (c.toNat - '0'.toNat) else none

/-- Accumulate the maximal leading run of decimal digits. -/
def digitsValAux : List Char → Nat → Nat
  | [], acc => acc
  | c :: cs, acc =>
    match digitVal c with
    | some d => digitsValAux cs (acc * 10 + d)
    | none => acc

/-- Value of the maximal leading digit run; `none` when the first character is
not a digit (JS `parseInt` yields `NaN` there). -/
def parseLeadingDigits : List Char → Option Nat
  | [] => none
  | c :: cs =>
    match digitVal c with
    | some d => some (digitsValAux cs d)
    | none => none

/-- JS `parseInt(s, 10)`: skip leading whitespace, optional sign, maximal
digit run; `none` models `NaN`. -/
def jsParseInt10 (s : String) : Option Int :=
  let cs := s.data.dropWhile isJsWhitespace
  match cs with
  | '+' :: rest => (parseLeadingDigits rest).map (fun n => (n : Int))
  | '-' :: rest => (parseLeadingDigits rest).map (fun n => -(n : Int))
  | _ => (parseLeadingDigits cs).map (fun n => (n : Int))

/-! ## Fragment filter (webpage translate, lines 335-354) -/

/-- ASCII letter, the `a-zA-Z` part of the regex `[a-zA-Z一-龥]`. -/
def isAsciiLetter (c : Char) : Bool :=
  ('a' ≤ c && c ≤ 'z') || ('A' ≤ c && c ≤ 'Z')

/-- The `一-龥` part of the regex `[a-zA-Z一-龥]`. -/
def isCJKIdeograph (c : Char) : Bool :=
  0x4e00 ≤ c.toNat && c.toNat ≤ 0x9fa5

/-- One character of the regex class `[a-zA-Z一-龥]`. -/
def isLetterOrCJKChar (c : Char) : Bool := isAsciiLetter c || isCJKIdeograph c

/-- `/[a-zA-Z一-龥]/.test(s)`. -/
def hasLetterOrCJK (s : String) : Bool := s.data.any isLetterOrCJKChar

/-- `cleanedContent.length > 0 && !/[a-zA-Z一-龥]/.test(cleanedContent)
&& cleanedContent.length < 3` from the source. -/
def isPurePunctuationOrShort (cleaned : String) : Bool :=
  !(cleaned.length == 0) && !hasLetterOrCJK cleaned && decide (cleaned.length < 3)

/-- The filter's skip condition for one fragment:
`cleanedContent.length === 0 || isPurePunctuationOrShort`. -/
def isExcludedFragment (content : String) : Bool :=
  let cleaned := jsTrimStr content
  cleaned.length == 0 || isPurePunctuationOrShort cleaned

/-! ## Webpage translate: data model
(`src/public/web-page-translate/custom/translate.ts`, final revision) -/

/-- One entry of the request body's `texts` array: `{ id, content }`. -/
structure WFragment where
  id : String
  content : String
deriving DecidableEq

/-- One entry of the response's `data.texts` array: `{ id, translation }`.
The `translation` field may be absent (`undefined`), modelled by `Option`. -/
structure WRespItem where
  id : String
  translation : Option String
deriving DecidableEq

/-- The `data` field of `CustomApiResponse`.  The `texts` array may be absent,
and its items may be `null`, hence the two `Option` layers. -/
structure WRespData where
  texts : Option (List (Option WRespItem))
  sourceLanguage : String
  targetLanguage : String
deriving DecidableEq

/-- `CustomApiResponse` of the webpage translate. -/
structure WResponse where
  code : String
  data : Option WRespData
  message : Option String
deriving DecidableEq

/-- `FinalResultItem` (the `comparisons` field is never set by this code). -/
structure FinalResultItem where
  translations : List String
deriving DecidableEq

/-- The distinct `throw` sites of the webpage translate, after the response
arrives.  (`getError` wraps each as a coded error object; `proxyNotOk` is the
plain `Error` thrown on `!res.ok`, re-wrapped as `RESULT_ERROR` by the catch
block.) -/
inductive WError where
  | proxyNotOk
  | apiNonSuccess (code : String) (message : Option String)
  | missingTextsField
  | countMismatch (returned sent : Nat)
deriving DecidableEq

/-! ## Webpage translate: filter loop and reconciler -/

/-- The `flattenedParagraphs.forEach` loop (lines 338-354): builds
`textsForApi` and `validContentIndices` in one pass, starting at flat index
`index`. -/
def buildApiTexts : Nat → List String → List WFragment × List Nat
  | _, [] => ([], [])
  | index, content :: rest =>
    let cleaned := jsTrimStr content
    let tail := buildApiTexts (index + 1) rest
    if cleaned.length == 0 || isPurePunctuationOrShort cleaned then tail
    else (⟨"0-" ++ Nat.repr index, cleaned⟩ :: tail.1, index :: tail.2)

/-- `textsForApi`: the filtered fragments sent to the provider. -/
def textsForApi (fl : List String) : List WFragment := (buildApiTexts 0 fl).1

/-- `validContentIndices`: original flat indices of the sent fragments. -/
def validContentIndices (fl : List String) : List Nat := (buildApiTexts 0 fl).2

/-- `(item && item.translation) || ''` applied to one returned item. -/
def itemTranslation : Option WRespItem → String
  | none => ""
  | some item =>
    match item.translation with
    | none => ""
    | some t => t

/-- The fill loop (lines 402-416): walk the original flat indices carrying
`apiIndex`; sent positions consume the next returned translation, skipped
positions keep their original content. -/
def fillTranslations (valid : List Nat) (trans : List String) :
    Nat → Nat → List String → List String
  | _, _, [] => []
  | i, apiIdx, content :: rest =>
    if valid.contains i then
      trans.getD apiIdx "" :: fillTranslations valid trans (i + 1) (apiIdx + 1) rest
    else
      content :: fillTranslations valid trans (i + 1) apiIdx rest

/-- `fullFlatTranslations`, the reconciled full-length flat sequence. -/
def fullFlatTranslations (fl : List String) (trans : List String) : List String :=
  fillTranslations (validContentIndices fl) trans 0 0 fl

/-- The inner re-nesting loop: take `n` entries from the remaining flat
translations, pushing `""` once the flat list is exhausted. -/
def takePad : Nat → List String → List String
  | 0, _ => []
  | n + 1, [] => "" :: takePad n []
  | n + 1, x :: xs => x :: takePad n xs

/-- The re-nesting `paragraphsArray.map` (lines 419-436): each row consumes
`row.length` entries of the full flat translation list. -/
def renestTranslations : List (List String) → List String → List FinalResultItem
  | [], _ => []
  | row :: rest, rem =>
    ⟨takePad row.length rem⟩ :: renestTranslations rest (rem.drop row.length)

/-- The webpage translate from the point the proxied response is available
(everything before that — configuration lookup, URL parsing, header
construction — does not affect the reconciliation, and the request body is
modelled separately).  `resOk` is `res.ok`.
`checkResultFromCustomWebpageTranslatSource` (whose implementation is not part
of the repository sources here) is applied to the already-built `finalResult`
and cannot alter the returned value, so it is modelled as a pass-through. -/
def webpageTranslate (paragraphs : List (List String)) (resOk : Bool)
    (resp : WResponse) : Except WError (List FinalResultItem) :=
  let fl := paragraphs.flatten
  if resOk = false then .error .proxyNotOk
  else if !(resp.code == "S000000") then .error (.apiNonSuccess resp.code resp.message)
  else
    match resp.data with
    | none => .error (.apiNonSuccess resp.code resp.message)
    | some data =>
      match data.texts with
      | none => .error .missingTextsField
      | some rawResultArray =>
        let sent := textsForApi fl
        if !(rawResultArray.length == sent.length) then
          .error (.countMismatch rawResultArray.length sent.length)
        else
          let flatApiTranslations := rawResultArray.map itemTranslation
          .ok (renestTranslations paragraphs (fullFlatTranslations fl flatApiTranslations))

/-! ## Endpoint URL parsing and connection-parameter extraction
(single-text translate lines 39-70, webpage translate lines 278-318).

Both functions run the same ad-hoc query-string parser:
`indexOf('?')`, `split('&')`, `split('=')`, `decodeURIComponent` on key and
value, keys overwriting earlier ones; a pair with an empty raw key is skipped.
`decodeFn` stands for the platform builtin `decodeURIComponent`. -/

/-- The query part of the endpoint URL: everything after the first `?`,
`none` when the URL has no `?` (then `extractedParams` stays `{}`). -/
def queryStringOf (urlString : String) : Option String :=
  (breakAtFirst '?' urlString.data).map (fun p => String.mk p.2)

/-- `paramsString.split('&').forEach(...)`: decoded key/value pairs in
source order.  `pair.split('=')` destructured as `[key, value]` keeps the
piece before the first `=` and the piece between the first and a possible
second `=`; `value || ''` turns a missing value into the empty string. -/
def parseQueryPairs (decodeFn : String → String) (paramsString : String) :
    List (String × String) :=
  (splitOnChar '&' paramsString.data).filterMap (fun pairChars =>
    match splitOnChar '=' pairChars with
    | [] => none
    | key :: rest =>
      if key = [] then none
      else some (decodeFn (String.mk key), decodeFn (String.mk (rest.headD []))))

/-- The `extractedParams` object built from the configured endpoint URL. -/
def extractedParams (decodeFn : String → String) (urlString : String) :
    List (String × String) :=
  match queryStringOf urlString with
  | none => []
  | some ps => parseQueryPairs decodeFn ps

/-- `extractedParams[k] || ''`: JS property lookup (last write wins) with
both a missing key and an empty value collapsing to `''`. -/
def lookupParam (params : List (String × String)) (k : String) : String :=
  match params.reverse.find? (fun p => p.1 == k) with
  | some p => p.2
  | none => ""

/-- A JS value that is either a string or a number (the single-text
translate mixes the two in its request body). -/
inductive JsonVal where
  | str (s : String)
  | num (n : Int)
deriving DecidableEq

/-- Single-text translate: `authorizationToken = extractedParams['key'] || ''`. -/
def singleAuthToken (decodeFn : String → String) (u : String) : String :=
  lookupParam (extractedParams decodeFn u) "key"

/-- Single-text translate: `translatorCodeValue = extractedParams['tc'] || ''`
(a raw string; the empty string both when `tc` is absent and when empty). -/
def singleTranslatorCode (decodeFn : String → String) (u : String) : String :=
  lookupParam (extractedParams decodeFn u) "tc"

/-- Single-text translate: `promptBuilderCodeValue = extractedParams['pbc'] || 0`
(the decoded string when present and non-empty, the number `0` otherwise). -/
def singlePromptBuilderCode (decodeFn : String → String) (u : String) : JsonVal :=
  let v := lookupParam (extractedParams decodeFn u) "pbc"
  if v == "" then .num 0 else .str v

/-- `authorizationToken.startsWith('Bearer ') ? authorizationToken
: 'Bearer ' + authorizationToken` (same expression in both functions). -/
def authorizationHeaderValue (token : String) : String :=
  if jsStartsWith token "Bearer " then token else "Bearer " ++ token

/-- Webpage translate: `extractedParams['key'] || ''`. -/
def webAuthToken (decodeFn : String → String) (u : String) : String :=
  lookupParam (extractedParams decodeFn u) "key"

/-- Webpage translate: `rawTranslatorCode = extractedParams['tc'] || '0'`. -/
def webRawTranslatorCode (decodeFn : String → String) (u : String) : String :=
  let v := lookupParam (extractedParams decodeFn u) "tc"
  if v == "" then "0" else v

/-- Webpage translate: `rawPromptBuilderCode = extractedParams['pbc'] || '0'`. -/
def webRawPromptBuilderCode (decodeFn : String → String) (u : String) : String :=
  let v := lookupParam (extractedParams decodeFn u) "pbc"
  if v == "" then "0" else v

/-- Webpage translate:
`parseInt(rawTranslatorCode.replace(/"/g, ''), 10) || 0`. -/
def webTranslatorCodeValue (decodeFn : String → String) (u : String) : Int :=
  (jsParseInt10 (stripQuotes (webRawTranslatorCode decodeFn u))).getD 0

/-- Webpage translate:
`parseInt(rawPromptBuilderCode.replace(/"/g, ''), 10) || 0`. -/
def webPromptBuilderCodeValue (decodeFn : String → String) (u : String) : Int :=
  (jsParseInt10 (stripQuotes (webRawPromptBuilderCode decodeFn u))).getD 0

/-! ## Single-text translate (`src/public/translate/custom/translate.ts`)

The transport and JSON decoding are external; the model takes the two parsed
responses (the second is consulted only when the fallback fires) and returns
the list of issued request bodies together with the outcome. -/

/-- The caller-supplied parameters used by the control flow.  `from` and `to`
are `""` when the caller did not pin them (JS `undefined` and `''` behave
identically in every use the function makes of them). -/
structure SingleParams where
  text : String
  fromLang : String
  toLang : String
  preferredLanguage : String
  secondPreferredLanguage : String
deriving DecidableEq

/-- One `{ id, translation }` item of the single-text response. -/
structure SingleRespItem where
  id : String
  translation : String
deriving DecidableEq

/-- The `data` field of the single-text `CustomApiResponse`. -/
structure SingleRespData where
  sourceLanguage : String
  targetLanguage : String
  texts : List SingleRespItem
deriving DecidableEq

/-- The single-text `CustomApiResponse`. -/
structure SingleResponse where
  code : String
  data : Option SingleRespData
  message : Option String
deriving DecidableEq

/-- The single-text request body `fetchJSON`.  `targetLanguage` is
`langCode[to]`, which is `undefined` (`none`) when `to` is not a key of the
table. -/
structure SingleFetchJSON where
  targetLanguage : Option String
  translatorCode : String
  promptBuilderCode : JsonVal
  texts : List WFragment
deriving DecidableEq

/-- The distinct error outcomes of the single-text translate. -/
inductive SError where
  | languageNotSupported
  | apiNonSuccess (second : Bool) (code : String) (message : Option String)
  | emptyResult
deriving DecidableEq

/-- The value the function finally returns (the fields of `TranslateResult`
this code sets; the always-`undefined` optional fields are omitted). -/
structure TranslateResultModel where
  result : List String
  fromLang : String
  toLang : String
  text : String
deriving DecidableEq

/-- `from = from || 'auto'`. -/
def resolvedFrom (p : SingleParams) : String :=
  if p.fromLang == "" then "auto" else p.fromLang

/-- `to = to || (from === preferredLanguage ? secondPreferredLanguage
: preferredLanguage)`, with `from` already resolved. -/
def resolvedTo (p : SingleParams) : String :=
  if p.toLang == "" then
    (if resolvedFrom p == p.preferredLanguage then p.secondPreferredLanguage
     else p.preferredLanguage)
  else p.toLang

/-- The first request body (lines 98-105). -/
def mkFirstRequest (langCode : String → Option String)
    (translatorCodeValue : String) (promptBuilderCodeValue : JsonVal)
    (p : SingleParams) : SingleFetchJSON :=
  { targetLanguage := langCode (resolvedTo p)
    translatorCode := translatorCodeValue
    promptBuilderCode := promptBuilderCodeValue
    texts := [⟨"0-0", p.text⟩] }

/-- `responseData.code !== 'S000000' || !responseData.data` (lines 118-121 and
149-151); `second` distinguishes the two throw sites' messages. -/
def processSuccess (second : Bool) (resp : SingleResponse) :
    Except SError SingleRespData :=
  match resp.data with
  | none => .error (.apiNonSuccess second resp.code resp.message)
  | some d =>
    if resp.code == "S000000" then .ok d
    else .error (.apiNonSuccess second resp.code resp.message)

/-- The fallback condition (line 131): `!originFrom && !originTo &&
sourceLangFromApi === targetLangFromApi &&
preferredLanguage !== secondPreferredLanguage`. -/
def retryCondition (p : SingleParams) (d : SingleRespData) : Bool :=
  p.fromLang == "" && p.toLang == "" &&
    d.sourceLanguage == d.targetLanguage &&
    !(p.preferredLanguage == p.secondPreferredLanguage)

/-- Result construction (lines 156-179): `data.texts[0]?.translation`,
rejected when it or `data.sourceLanguage` is falsy. -/
def finalizeSingle (text toUsed : String) (d : SingleRespData) :
    Except SError TranslateResultModel :=
  match d.texts.head? with
  | none => .error .emptyResult
  | some item =>
    if item.translation == "" || d.sourceLanguage == "" then .error .emptyResult
    else .ok { result := [item.translation], fromLang := d.sourceLanguage,
               toLang := toUsed, text := text }

/-- The single-text translate: language resolution and validation, first
request, conditional fallback re-request, result construction.  Returns the
issued request bodies in order, paired with the outcome. -/
def singleTranslate (langCode : String → Option String)
    (translatorCodeValue : String) (promptBuilderCodeValue : JsonVal)
    (p : SingleParams) (resp1 resp2 : SingleResponse) :
    List SingleFetchJSON × Except SError TranslateResultModel :=
  if (langCode (resolvedFrom p)).isNone || (langCode (resolvedTo p)).isNone then
    ([], .error .languageNotSupported)
  else
    let fetchJSON := mkFirstRequest langCode translatorCodeValue promptBuilderCodeValue p
    match processSuccess false resp1 with
    | .error e => ([fetchJSON], .error e)
    | .ok data1 =>
      if retryCondition p data1 then
        let newFetchJSON :=
          { fetchJSON with targetLanguage := langCode p.secondPreferredLanguage }
        match processSuccess true resp2 with
        | .error e => ([fetchJSON, newFetchJSON], .error e)
        | .ok data2 =>
          ([fetchJSON, newFetchJSON],
           finalizeSingle p.text p.secondPreferredLanguage data2)
      else
        ([fetchJSON], finalizeSingle p.text (resolvedTo p) data1)

instance {ε α : Type} [DecidableEq ε] [DecidableEq α] : DecidableEq (Except ε α) := fun x y =>
  match x, y with
  | .ok a, .ok b =>
      if h : a = b then isTrue (by rw [h])
      else isFalse (by intro hc; cases hc; exact h rfl)
  | .error a, .error b =>
      if h : a = b then isTrue (by rw [h])
      else isFalse (by intro hc; cases hc; exact h rfl)
  | .ok _, .error _ => isFalse (by intro h; cases h)
  | .error _, .ok _ => isFalse (by intro h; cases h)

/-! ## Specification-side definitions, for refinement comparison -/

/-- The exclusion rule as the specification words it: after trimming
whitespace the fragment is empty, or its trimmed length is below 3 and it
contains no letter and no CJK ideograph. -/
def specFragmentExcluded (content : String) : Prop :=
  jsTrimStr content = "" ∨
    ((jsTrimStr content).length < 3 ∧
      ∀ c ∈ (jsTrimStr content).data, isAsciiLetter c = false ∧ isCJKIdeograph c = false)

/-- The id-lookup reconciliation the specification describes: the translation
of the first response item whose id equals the fragment's id. -/
def lookupTranslationById (raw : List (Option WRespItem)) (fid : String) :
    Option String :=
  match raw.find? (fun item =>
    match item with
    | some it => it.id == fid
    | none => false) with
  | some (some it) => it.translation
  | _ => none

/-- Number of filtered-in (sent) fragments in a flat prefix; used to name the
position in the response that the reconciler consumes for a given original
index. -/
def includedCount (xs : List String) : Nat :=
  (xs.filter (fun s => !isExcludedFragment s)).length

example : isExcludedFragment ":" = true := by decide
example : isExcludedFragment "Hello" = false := by decide
example : isExcludedFragment "  " = true := by decide
example : isExcludedFragment "12" = true := by decide
example : isExcludedFragment "123" = false := by decide
example : isExcludedFragment "你" = false := by decide
example : isExcludedFragment " a " = false := by decide

example :
    webpageTranslate [["Hello"], [":"]] true
      ⟨"S000000", some ⟨some [some ⟨"0-0", some "你好"⟩], "en", "zh-CN"⟩, none⟩ =
      .ok [⟨["你好"]⟩, ⟨[":"]⟩] := by decide

example :
    webpageTranslate [] true ⟨"S000000", some ⟨some [], "en", "zh-CN"⟩, none⟩ =
      .ok [] := by decide

example :
    webpageTranslate [["Hello"]] true
      ⟨"S000000", some ⟨some [], "en", "zh-CN"⟩, none⟩ =
      .error (.countMismatch 0 1) := by decide

example :
    extractedParams (fun s => s) "https://api.example.com/tr?key=abc&tc=2&pbc=3" =
      [("key", "abc"), ("tc", "2"), ("pbc", "3")] := by decide

example : singleTranslatorCode (fun s => s) "https://api.example.com/tr" = "" := by decide

example :
    webTranslatorCodeValue (fun s => s) "https://api.example.com/tr?tc=\"2\"" = 2 := by decide

example :
    webTranslatorCodeValue (fun s => s) "https://api.example.com/tr" = 0 := by decide

example : authorizationHeaderValue "abc" = "Bearer abc" := by decide

example : authorizationHeaderValue "Bearer abc" = "Bearer abc" := by decide

example :
    (singleTranslate (fun s => if s == "en" || s == "fr" || s == "auto" then some s else none)
      "" (.num 0)
      ⟨"A", "", "", "en", "fr"⟩
      ⟨"S000000", some ⟨"en", "en", [⟨"0-0", "A1"⟩]⟩, none⟩
      ⟨"S000000", some ⟨"en", "fr", [⟨"0-0", "A2"⟩]⟩, none⟩).1.length = 2 := by decide

example :
    (singleTranslate (fun s => if s == "en" || s == "fr" || s == "auto" then some s else none)
      "" (.num 0)
      ⟨"A", "", "fr", "en", "fr"⟩
      ⟨"S000000", some ⟨"en", "en", [⟨"0-0", "A1"⟩]⟩, none⟩
      ⟨"S000000", some ⟨"en", "fr", [⟨"0-0", "A2"⟩]⟩, none⟩).1.length = 1 := by decide

/-! ## Structural lemmas about the reconciler -/

theorem takePad_length : ∀ (n : Nat) (xs : List String), (takePad n xs).length = n
  | 0, _ => rfl
  | n + 1, [] => by simp [takePad, takePad_length n []]
  | n + 1, x :: xs => by simp [takePad, takePad_length n xs]

theorem takePad_eq_take : ∀ (n : Nat) (xs : List String), n ≤ xs.length →
    takePad n xs = xs.take n
  | 0, _, _ => rfl
  | n + 1, [], h => by simp at h
  | n + 1, x :: xs, h => by
    simp only [takePad, List.take_succ_cons, List.cons.injEq, true_and]
    exact takePad_eq_take n xs (by simpa using h)

theorem renestTranslations_forall2 : ∀ (rows : List (List String)) (rem : List String),
    List.Forall₂ (fun (it : FinalResultItem) (row : List String) =>
      it.translations.length = row.length) (renestTranslations rows rem) rows
  | [], _ => List.Forall₂.nil
  | row :: rest, rem => by
    refine List.Forall₂.cons ?_ (renestTranslations_forall2 rest (rem.drop row.length))
    simpa using takePad_length row.length rem

theorem renestTranslations_flatten : ∀ (rows : List (List String)) (rem : List String),
    rem.length = (rows.map List.length).sum →
    ((renestTranslations rows rem).map FinalResultItem.translations).flatten = rem
  | [], rem, h => by
    simp only [renestTranslations, List.map_nil, List.flatten_nil]
    exact (List.length_eq_zero.mp (by simpa using h)).symm
  | row :: rest, rem, h => by
    have hsum : rem.length = row.length + (rest.map List.length).sum := by
      simpa using h
    have hle : row.length ≤ rem.length := by omega
    have hdrop : (rem.drop row.length).length = (rest.map List.length).sum := by
      simp only [List.length_drop]; omega
    simp only [renestTranslations, List.map_cons, List.flatten_cons]
    rw [takePad_eq_take _ _ hle, renestTranslations_flatten rest _ hdrop]
    exact List.take_append_drop _ _

theorem fillTranslations_cons (valid : List Nat) (trans : List String)
    (i a : Nat) (content : String) (rest : List String) :
    fillTranslations valid trans i a (content :: rest) =
      if valid.contains i = true
      then trans.getD a "" :: fillTranslations valid trans (i + 1) (a + 1) rest
      else content :: fillTranslations valid trans (i + 1) a rest := rfl

theorem fillTranslations_length (valid : List Nat) (trans : List String)
    (suffix : List String) : ∀ (i a : Nat),
    (fillTranslations valid trans i a suffix).length = suffix.length := by
  induction suffix with
  | nil => intro i a; rfl
  | cons content rest ih =>
    intro i a
    rw [fillTranslations_cons]
    by_cases h : valid.contains i = true
    · rw [if_pos h]; simp [ih]
    · rw [if_neg h]; simp [ih]

theorem fillTranslations_getD (valid : List Nat) (trans : List String)
    (suffix : List String) : ∀ (i a k : Nat), k < suffix.length →
    (∀ j, j < suffix.length →
      valid.contains (i + j) = !isExcludedFragment (suffix.getD j "")) →
    (fillTranslations valid trans i a suffix).getD k "" =
      (if isExcludedFragment (suffix.getD k "") then suffix.getD k ""
       else trans.getD (a + includedCount (suffix.take k)) "") := by
  induction suffix with
  | nil => intro i a k hk _; simp at hk
  | cons content rest ih =>
    intro i a k hk hvalid
    have h0 : valid.contains i = !isExcludedFragment content := by
      simpa using hvalid 0 (by simp)
    cases k with
    | zero =>
      by_cases hex : isExcludedFragment content = true
      · have hcon : valid.contains i = false := by rw [h0, hex]; rfl
        rw [fillTranslations_cons, hcon, if_neg Bool.false_ne_true]
        simp [List.getD_cons_zero, hex]
      · have hex' : isExcludedFragment content = false := by
          simpa using hex
        have hcon : valid.contains i = true := by rw [h0, hex']; rfl
        rw [fillTranslations_cons, hcon, if_pos rfl]
        simp [List.getD_cons_zero, hex', includedCount]
    | succ k' =>
      have hk' : k' < rest.length := by simpa using hk
      have hrest : ∀ j, j < rest.length →
          valid.contains (i + 1 + j) = !isExcludedFragment (rest.getD j "") := by
        intro j hj
        have := hvalid (j + 1) (by simpa using Nat.succ_lt_succ hj)
        rw [show i + (j + 1) = i + 1 + j by omega] at this
        simpa using this
      by_cases hex : isExcludedFragment content = true
      · have hcon : valid.contains i = false := by rw [h0, hex]; rfl
        have hcount : includedCount (content :: rest.take k') =
            includedCount (rest.take k') := by
          simp [includedCount, List.filter_cons, hex]
        rw [fillTranslations_cons, hcon, if_neg Bool.false_ne_true,
          List.getD_cons_succ, ih (i + 1) a k' hk' hrest]
        simp only [List.getD_cons_succ, List.take_succ_cons, hcount]
      · have hex' : isExcludedFragment content = false := by
          simpa using hex
        have hcon : valid.contains i = true := by rw [h0, hex']; rfl
        have hcount : includedCount (content :: rest.take k') =
            includedCount (rest.take k') + 1 := by
          simp [includedCount, List.filter_cons, hex']
        have harith : a + (includedCount (rest.take k') + 1) =
            a + 1 + includedCount (rest.take k') := by omega
        rw [fillTranslations_cons, hcon, if_pos rfl,
          List.getD_cons_succ, ih (i + 1) (a + 1) k' hk' hrest]
        simp only [List.getD_cons_succ, List.take_succ_cons, hcount, harith]

/-! ## Lemmas about the filter loop -/

theorem buildApiTexts_cons (k : Nat) (content : String) (rest : List String) :
    buildApiTexts k (content :: rest) =
      if isExcludedFragment content = true then buildApiTexts (k + 1) rest
      else (⟨"0-" ++ Nat.repr k, jsTrimStr content⟩ :: (buildApiTexts (k + 1) rest).1,
            k :: (buildApiTexts (k + 1) rest).2) := rfl

theorem buildApiTexts_snd_ge (fl : List String) : ∀ (k : Nat),
    ∀ i ∈ (buildApiTexts k fl).2, k ≤ i := by
  induction fl with
  | nil => intro k i hi; simp [buildApiTexts] at hi
  | cons content rest ih =>
    intro k i hi
    rw [buildApiTexts_cons] at hi
    by_cases hex : isExcludedFragment content = true
    · rw [if_pos hex] at hi
      have := ih (k + 1) i hi
      omega
    · rw [if_neg hex] at hi
      rcases List.mem_cons.mp hi with h | h
      · omega
      · have := ih (k + 1) i h
        omega

theorem buildApiTexts_snd_sorted (fl : List String) : ∀ (k : Nat),
    ((buildApiTexts k fl).2).Pairwise (· < ·) := by
  induction fl with
  | nil => intro k; simp [buildApiTexts]
  | cons content rest ih =>
    intro k
    rw [buildApiTexts_cons]
    by_cases hex : isExcludedFragment content = true
    · rw [if_pos hex]; exact ih (k + 1)
    · rw [if_neg hex]
      refine List.Pairwise.cons ?_ (ih (k + 1))
      intro i hi
      have := buildApiTexts_snd_ge rest (k + 1) i hi
      omega

theorem buildApiTexts_snd_mem (fl : List String) : ∀ (k i : Nat),
    i ∈ (buildApiTexts k fl).2 ↔
      ∃ j, j < fl.length ∧ i = k + j ∧ isExcludedFragment (fl.getD j "") = false := by
  induction fl with
  | nil => intro k i; simp [buildApiTexts]
  | cons content rest ih =>
    intro k i
    rw [buildApiTexts_cons]
    by_cases hex : isExcludedFragment content = true
    · rw [if_pos hex, ih (k + 1) i]
      constructor
      · rintro ⟨j, hj, hij, hexj⟩
        exact ⟨j + 1, by simpa using Nat.succ_lt_succ hj, by omega, by simpa using hexj⟩
      · rintro ⟨j, hj, hij, hexj⟩
        cases j with
        | zero =>
          rw [List.getD_cons_zero] at hexj
          rw [hexj] at hex
          cases hex
        | succ j' =>
          exact ⟨j', by simpa using hj, by omega, by simpa using hexj⟩
    · have hex' : isExcludedFragment content = false := by simpa using hex
      rw [if_neg hex]
      simp only [List.mem_cons]
      rw [ih (k + 1) i]
      constructor
      · rintro (h | ⟨j, hj, hij, hexj⟩)
        · exact ⟨0, by simp, by omega, by simpa using hex'⟩
        · exact ⟨j + 1, by simpa using Nat.succ_lt_succ hj, by omega, by simpa using hexj⟩
      · rintro ⟨j, hj, hij, hexj⟩
        cases j with
        | zero => left; omega
        | succ j' =>
          right
          exact ⟨j', by simpa using hj, by omega, by simpa using hexj⟩

theorem buildApiTexts_fst (fl : List String) : ∀ (k : Nat),
    (buildApiTexts k fl).1 = ((buildApiTexts k fl).2).map
      (fun i => ⟨"0-" ++ Nat.repr i, jsTrimStr (fl.getD (i - k) "")⟩) := by
  induction fl with
  | nil => intro k; simp [buildApiTexts]
  | cons content rest ih =>
    intro k
    rw [buildApiTexts_cons]
    by_cases hex : isExcludedFragment content = true
    · rw [if_pos hex, ih (k + 1)]
      refine List.map_congr_left ?_
      intro i hi
      have hge : k + 1 ≤ i := buildApiTexts_snd_ge rest (k + 1) i hi
      have h1 : i - k = (i - (k + 1)) + 1 := by omega
      rw [h1, List.getD_cons_succ]
    · rw [if_neg hex]
      simp only [List.map_cons]
      congr 1
      · rw [Nat.sub_self, List.getD_cons_zero]
      · rw [ih (k + 1)]
        refine List.map_congr_left ?_
        intro i hi
        have hge : k + 1 ≤ i := buildApiTexts_snd_ge rest (k + 1) i hi
        have h1 : i - k = (i - (k + 1)) + 1 := by omega
        rw [h1, List.getD_cons_succ]

theorem validContentIndices_mem (fl : List String) (i : Nat) :
    i ∈ validContentIndices fl ↔
      i < fl.length ∧ isExcludedFragment (fl.getD i "") = false := by
  rw [validContentIndices, buildApiTexts_snd_mem fl 0 i]
  constructor
  · rintro ⟨j, hj, hij, hexj⟩
    have : i = j := by omega
    subst this
    exact ⟨hj, hexj⟩
  · rintro ⟨hi, hexi⟩
    exact ⟨i, hi, by omega, hexi⟩

theorem validContentIndices_contains (fl : List String) (j : Nat)
    (hj : j < fl.length) :
    (validContentIndices fl).contains j = !isExcludedFragment (fl.getD j "") := by
  by_cases hex : isExcludedFragment (fl.getD j "") = true
  · rw [hex]
    have hnot : j ∉ validContentIndices fl := by
      rw [validContentIndices_mem]
      rintro ⟨-, hc⟩
      rw [hc] at hex
      cases hex
    cases hc : (validContentIndices fl).contains j with
    | false => rfl
    | true => exact absurd (List.elem_iff.mp hc) hnot
  · have hex' : isExcludedFragment (fl.getD j "") = false := by simpa using hex
    rw [hex']
    have hmem : j ∈ validContentIndices fl := (validContentIndices_mem fl j).mpr ⟨hj, hex'⟩
    have : (validContentIndices fl).contains j = true := List.elem_iff.mpr hmem
    rw [this]
    rfl

theorem fullFlatTranslations_getD (fl trans : List String) (i : Nat)
    (hi : i < fl.length) :
    (fullFlatTranslations fl trans).getD i "" =
      (if isExcludedFragment (fl.getD i "") then fl.getD i ""
       else trans.getD (includedCount (fl.take i)) "") := by
  have h := fillTranslations_getD (validContentIndices fl) trans fl 0 0 i hi ?_
  · simpa using h
  · intro j hj
    simpa using validContentIndices_contains fl j hj

theorem fullFlatTranslations_length (fl trans : List String) :
    (fullFlatTranslations fl trans).length = fl.length :=
  fillTranslations_length (validContentIndices fl) trans fl 0 0

theorem map_itemTranslation_getD (raw : List (Option WRespItem)) : ∀ (k : Nat),
    (raw.map itemTranslation).getD k "" = itemTranslation (raw.getD k none) := by
  induction raw with
  | nil => intro k; simp [itemTranslation]
  | cons x xs ih =>
    intro k
    cases k with
    | zero => simp
    | succ k' => simpa using ih k'

/-! ## Success and error characterization of the webpage translate -/

theorem webpageTranslate_ok_inv {paragraphs : List (List String)} {resOk : Bool}
    {resp : WResponse} {r : List FinalResultItem}
    (h : webpageTranslate paragraphs resOk resp = .ok r) :
    ∃ d raw, resOk = true ∧ resp.code = "S000000" ∧ resp.data = some d ∧
      d.texts = some raw ∧
      raw.length = (textsForApi paragraphs.flatten).length ∧
      r = renestTranslations paragraphs
            (fullFlatTranslations paragraphs.flatten (raw.map itemTranslation)) := by
  unfold webpageTranslate at h
  split at h
  · cases h
  · rename_i hok
    split at h
    · cases h
    · rename_i hcode
      split at h
      · cases h
      · rename_i data hdata
        split at h
        · cases h
        · rename_i raw hraw
          dsimp only at h
          split at h
          · cases h
          · rename_i hcount
            refine ⟨data, raw, ?_, ?_, hdata, hraw, ?_, ?_⟩
            · cases resOk with
              | true => rfl
              | false => exact absurd rfl hok
            · have hbeq : (resp.code == "S000000") = true := by
                cases hc : resp.code == "S000000" with
                | true => rfl
                | false => exact absurd (by rw [hc]; rfl) hcode
              exact eq_of_beq hbeq
            · have hbeq : (raw.length == (textsForApi paragraphs.flatten).length) = true := by
                cases hc : raw.length == (textsForApi paragraphs.flatten).length with
                | true => rfl
                | false => exact absurd (by rw [hc]; rfl) hcount
              exact eq_of_beq hbeq
            · cases h
              rfl

theorem webpageTranslate_eq_ok (paragraphs : List (List String)) (resp : WResponse)
    (d : WRespData) (raw : List (Option WRespItem))
    (hcode : resp.code = "S000000") (hdata : resp.data = some d)
    (htexts : d.texts = some raw)
    (hcount : raw.length = (textsForApi paragraphs.flatten).length) :
    webpageTranslate paragraphs true resp =
      .ok (renestTranslations paragraphs
        (fullFlatTranslations paragraphs.flatten (raw.map itemTranslation))) := by
  unfold webpageTranslate
  rw [hdata, hcode]
  simp [htexts, hcount]

theorem webpageTranslate_count_mismatch (paragraphs : List (List String))
    (resp : WResponse) (d : WRespData) (raw : List (Option WRespItem))
    (hcode : resp.code = "S000000") (hdata : resp.data = some d)
    (htexts : d.texts = some raw)
    (hcount : raw.length ≠ (textsForApi paragraphs.flatten).length) :
    webpageTranslate paragraphs true resp =
      .error (.countMismatch raw.length (textsForApi paragraphs.flatten).length) := by
  unfold webpageTranslate
  rw [hdata, hcode]
  simp [htexts, hcount]

/-! ## Trace lemmas for the single-text translate -/

theorem singleTranslate_trace (langCode : String → Option String)
    (tcv : String) (pbcv : JsonVal) (p : SingleParams)
    (resp1 resp2 : SingleResponse) (d1 : SingleRespData)
    (hcode : resp1.code = "S000000") (hdata : resp1.data = some d1)
    (hfrom : (langCode (resolvedFrom p)).isSome = true)
    (hto : (langCode (resolvedTo p)).isSome = true) :
    (singleTranslate langCode tcv pbcv p resp1 resp2).1 =
      (if retryCondition p d1 = true then
        [mkFirstRequest langCode tcv pbcv p,
         { mkFirstRequest langCode tcv pbcv p with
             targetLanguage := langCode p.secondPreferredLanguage }]
      else [mkFirstRequest langCode tcv pbcv p]) := by
  have hn1 : (langCode (resolvedFrom p)).isNone = false := by
    rcases Option.isSome_iff_exists.mp hfrom with ⟨v, hv⟩
    rw [hv]; rfl
  have hn2 : (langCode (resolvedTo p)).isNone = false := by
    rcases Option.isSome_iff_exists.mp hto with ⟨v, hv⟩
    rw [hv]; rfl
  have hps : processSuccess false resp1 = .ok d1 := by
    unfold processSuccess
    rw [hdata, hcode]
    rfl
  unfold singleTranslate
  rw [hn1, hn2]
  simp only [Bool.or_self, Bool.false_eq_true, if_false]
  rw [hps]
  dsimp only
  by_cases hrc : retryCondition p d1 = true
  · rw [if_pos hrc, if_pos hrc]
    cases processSuccess true resp2 <;> rfl
  · rw [if_neg hrc, if_neg hrc]

theorem singleTranslate_trace_le (langCode : String → Option String)
    (tcv : String) (pbcv : JsonVal) (p : SingleParams)
    (r1 r2 : SingleResponse) :
    (singleTranslate langCode tcv pbcv p r1 r2).1.length ≤ 2 := by
  unfold singleTranslate
  split
  · simp
  · cases processSuccess false r1 with
    | error e => simp
    | ok d1 =>
      dsimp only
      split
      · cases processSuccess true r2 <;> simp
      · simp

theorem retryCondition_iff (p : SingleParams) (d : SingleRespData) :
    retryCondition p d = true ↔
      (p.toLang = "" ∧ p.fromLang = "" ∧ d.sourceLanguage = d.targetLanguage ∧
        p.preferredLanguage ≠ p.secondPreferredLanguage) := by
  unfold retryCondition
  simp only [Bool.and_eq_true, beq_iff_eq, Bool.not_eq_true', beq_eq_false_iff_ne, ne_eq]
  tauto

theorem string_eq_empty_of_length {s : String} (h : s.length = 0) : s = "" :=
  String.ext (List.length_eq_zero.mp h)

/-! ## Claim theorems -/

/-- C1: whenever the webpage translate returns successfully, the result has
exactly one item per input group, and the i-th item's `translations` list has
exactly as many entries as the i-th input group has fragments — including the
degenerate empty input, which is covered by the universal quantifier. -/
theorem webpage_translate_preserves_shape
    (paragraphs : List (List String)) (resOk : Bool) (resp : WResponse)
    (r : List FinalResultItem)
    (h : webpageTranslate paragraphs resOk resp = .ok r) :
    r.length = paragraphs.length ∧
      List.Forall₂ (fun (it : FinalResultItem) (row : List String) =>
        it.translations.length = row.length) r paragraphs := by
  obtain ⟨d, raw, -, -, -, -, -, hr⟩ := webpageTranslate_ok_inv h
  subst hr
  exact ⟨(renestTranslations_forall2 _ _).length_eq, renestTranslations_forall2 _ _⟩

theorem webpage_translate_preserves_shape_witness :
    (([⟨["你好", "世界"]⟩, ⟨[":"]⟩] : List FinalResultItem).length =
        ([["Hello", "World"], [":"]] : List (List String)).length ∧
      List.Forall₂ (fun (it : FinalResultItem) (row : List String) =>
        it.translations.length = row.length)
        [⟨["你好", "世界"]⟩, ⟨[":"]⟩] [["Hello", "World"], [":"]]) :=
  webpage_translate_preserves_shape [["Hello", "World"], [":"]] true
    ⟨"S000000",
      some ⟨some [some ⟨"0-0", some "你好"⟩, some ⟨"0-1", some "世界"⟩], "en", "zh-CN"⟩,
      none⟩
    [⟨["你好", "世界"]⟩, ⟨[":"]⟩] (by decide)

/-- C3: when the provider's response carries a number of returned items
different from the number of filtered fragments sent, the call fails with the
count-mismatch error and produces no reconciled output. -/
theorem count_mismatch_raises_error
    (paragraphs : List (List String)) (resp : WResponse)
    (d : WRespData) (raw : List (Option WRespItem))
    (hcode : resp.code = "S000000") (hdata : resp.data = some d)
    (htexts : d.texts = some raw)
    (hcount : raw.length ≠ (textsForApi paragraphs.flatten).length) :
    webpageTranslate paragraphs true resp =
      .error (.countMismatch raw.length (textsForApi paragraphs.flatten).length) :=
  webpageTranslate_count_mismatch paragraphs resp d raw hcode hdata htexts hcount

theorem count_mismatch_raises_error_witness :
    webpageTranslate [["Hello"]] true
        ⟨"S000000", some ⟨some [], "en", "zh-CN"⟩, none⟩ =
      .error (.countMismatch 0 1) := by
  have h := count_mismatch_raises_error [["Hello"]]
    ⟨"S000000", some ⟨some [], "en", "zh-CN"⟩, none⟩
    ⟨some [], "en", "zh-CN"⟩ [] rfl rfl rfl (by decide)
  simpa using h

/-- C5: any flat position the filter excluded receives the original fragment
content in the reconciled output — excluded fragments are never dropped and,
when their original content is non-empty, never replaced by the empty
string. -/
theorem excluded_fragments_pass_through
    (paragraphs : List (List String)) (resOk : Bool) (resp : WResponse)
    (r : List FinalResultItem) (i : Nat)
    (h : webpageTranslate paragraphs resOk resp = .ok r)
    (hi : i < paragraphs.flatten.length)
    (hex : isExcludedFragment (paragraphs.flatten.getD i "") = true) :
    ((r.map FinalResultItem.translations).flatten).getD i "" =
        paragraphs.flatten.getD i "" ∧
      (paragraphs.flatten.getD i "" ≠ "" →
        ((r.map FinalResultItem.translations).flatten).getD i "" ≠ "") := by
  obtain ⟨d, raw, -, -, -, -, -, hr⟩ := webpageTranslate_ok_inv h
  subst hr
  have hlen : (fullFlatTranslations paragraphs.flatten
      (raw.map itemTranslation)).length = (paragraphs.map List.length).sum := by
    rw [fullFlatTranslations_length]
    exact List.length_flatten paragraphs
  rw [renestTranslations_flatten paragraphs _ hlen,
    fullFlatTranslations_getD _ _ i hi, if_pos hex]
  exact ⟨rfl, fun hne => hne⟩

theorem excluded_fragments_pass_through_witness :
    ((([⟨["你好", ":"]⟩] : List FinalResultItem).map
          FinalResultItem.translations).flatten).getD 1 "" =
        ([["Hello", ":"]] : List (List String)).flatten.getD 1 "" ∧
      (([["Hello", ":"]] : List (List String)).flatten.getD 1 "" ≠ "" →
        ((([⟨["你好", ":"]⟩] : List FinalResultItem).map
            FinalResultItem.translations).flatten).getD 1 "" ≠ "") :=
  excluded_fragments_pass_through [["Hello", ":"]] true
    ⟨"S000000", some ⟨some [some ⟨"0-0", some "你好"⟩], "en", "zh-CN"⟩, none⟩
    [⟨["你好", ":"]⟩] 1 (by decide) (by decide) (by decide)

/-- C6 (counterexample): the reconciler does not look returned items up by id.
With both fragments sent (ids `0-0` and `0-1`) and a response returning the
right count but with the ids swapped, the translation placed at position 0 is
`"B"` — the response's first item, whose id is `0-1` — while id lookup for
`0-0` yields `"A"`. -/
theorem reconciler_not_by_id_counterexample :
    (textsForApi ["Hello", "World"]).map WFragment.id = ["0-0", "0-1"] ∧
      webpageTranslate [["Hello", "World"]] true
        ⟨"S000000",
          some ⟨some [some ⟨"0-1", some "B"⟩, some ⟨"0-0", some "A"⟩], "en", "fr"⟩,
          none⟩ = .ok [⟨["B", "A"]⟩] ∧
      lookupTranslationById [some ⟨"0-1", some "B"⟩, some ⟨"0-0", some "A"⟩] "0-0" =
        some "A" ∧
      ("B" : String) ≠ "A" := by decide

/-- C6 (amended): the reconciler assigns returned items positionally: the
flat position `i` of the j-th sent fragment receives the j-th returned item's
translation (`j` being the number of sent fragments before `i`), regardless
of the ids carried by the response; ids are never consulted and a wrong or
missing id raises no error — only a count difference does. -/
theorem reconciler_positional_assignment
    (paragraphs : List (List String)) (resOk : Bool) (resp : WResponse)
    (d : WRespData) (raw : List (Option WRespItem))
    (r : List FinalResultItem) (i : Nat)
    (h : webpageTranslate paragraphs resOk resp = .ok r)
    (hdata : resp.data = some d) (htexts : d.texts = some raw)
    (hi : i < paragraphs.flatten.length)
    (hinc : isExcludedFragment (paragraphs.flatten.getD i "") = false) :
    ((r.map FinalResultItem.translations).flatten).getD i "" =
      itemTranslation (raw.getD (includedCount (paragraphs.flatten.take i)) none) := by
  obtain ⟨d', raw', -, -, hdata', htexts', -, hr⟩ := webpageTranslate_ok_inv h
  rw [hdata] at hdata'
  injection hdata' with hd
  subst hd
  rw [htexts] at htexts'
  injection htexts' with hraw
  subst hraw
  subst hr
  have hlen : (fullFlatTranslations paragraphs.flatten
      (raw.map itemTranslation)).length = (paragraphs.map List.length).sum := by
    rw [fullFlatTranslations_length]
    exact List.length_flatten paragraphs
  rw [renestTranslations_flatten paragraphs _ hlen,
    fullFlatTranslations_getD _ _ i hi, if_neg (by rw [hinc]; exact Bool.false_ne_true)]
  exact map_itemTranslation_getD raw _

theorem reconciler_positional_assignment_witness :
    ((([⟨["B", "A"]⟩] : List FinalResultItem).map
          FinalResultItem.translations).flatten).getD 0 "" =
      itemTranslation
        (([some ⟨"0-1", some "B"⟩, some ⟨"0-0", some "A"⟩] :
            List (Option WRespItem)).getD
          (includedCount (([["Hello", "World"]] :
            List (List String)).flatten.take 0)) none) :=
  reconciler_positional_assignment [["Hello", "World"]] true
    ⟨"S000000",
      some ⟨some [some ⟨"0-1", some "B"⟩, some ⟨"0-0", some "A"⟩], "en", "fr"⟩, none⟩
    ⟨some [some ⟨"0-1", some "B"⟩, some ⟨"0-0", some "A"⟩], "en", "fr"⟩
    [some ⟨"0-1", some "B"⟩, some ⟨"0-0", some "A"⟩]
    [⟨["B", "A"]⟩] 0 (by decide) rfl rfl (by decide) (by decide)

/-- C9 (implicit): every fragment selected for submission is sent with its
whitespace-trimmed content (id `0-<flatIndex>`), and the reconciled output at
a sent position is the returned translation verbatim — the original
surrounding whitespace is not restored (only excluded positions keep the
original fragment, per the pass-through rule). -/
theorem sent_fragments_trimmed_not_restored
    (paragraphs : List (List String)) (resOk : Bool) (resp : WResponse)
    (d : WRespData) (raw : List (Option WRespItem))
    (r : List FinalResultItem) (i : Nat)
    (h : webpageTranslate paragraphs resOk resp = .ok r)
    (hdata : resp.data = some d) (htexts : d.texts = some raw)
    (hi : i < paragraphs.flatten.length)
    (hinc : isExcludedFragment (paragraphs.flatten.getD i "") = false) :
    (∀ fl : List String, textsForApi fl =
      (validContentIndices fl).map
        (fun j => ⟨"0-" ++ Nat.repr j, jsTrimStr (fl.getD j "")⟩)) ∧
      ((r.map FinalResultItem.translations).flatten).getD i "" =
        (raw.map itemTranslation).getD
          (includedCount (paragraphs.flatten.take i)) "" := by
  constructor
  · intro fl
    rw [textsForApi, validContentIndices, buildApiTexts_fst fl 0]
    refine List.map_congr_left ?_
    intro j hj
    rw [Nat.sub_zero]
  · obtain ⟨d', raw', -, -, hdata', htexts', -, hr⟩ := webpageTranslate_ok_inv h
    rw [hdata] at hdata'
    injection hdata' with hd
    subst hd
    rw [htexts] at htexts'
    injection htexts' with hraw
    subst hraw
    subst hr
    have hlen : (fullFlatTranslations paragraphs.flatten
        (raw.map itemTranslation)).length = (paragraphs.map List.length).sum := by
      rw [fullFlatTranslations_length]
      exact List.length_flatten paragraphs
    rw [renestTranslations_flatten paragraphs _ hlen,
      fullFlatTranslations_getD _ _ i hi,
      if_neg (by rw [hinc]; exact Bool.false_ne_true)]

theorem sent_fragments_trimmed_not_restored_witness :
    textsForApi [" Hi ", ":"] = [⟨"0-0", "Hi"⟩] ∧
      ((([⟨["X", ":"]⟩] : List FinalResultItem).map
          FinalResultItem.translations).flatten).getD 0 "" =
        (([some ⟨"0-0", some "X"⟩] : List (Option WRespItem)).map
            itemTranslation).getD
          (includedCount (([[" Hi ", ":"]] :
            List (List String)).flatten.take 0)) "" := by
  have h := sent_fragments_trimmed_not_restored [[" Hi ", ":"]] true
    ⟨"S000000", some ⟨some [some ⟨"0-0", some "X"⟩], "en", "fr"⟩, none⟩
    ⟨some [some ⟨"0-0", some "X"⟩], "en", "fr"⟩ [some ⟨"0-0", some "X"⟩]
    [⟨["X", ":"]⟩] 0 (by decide) rfl rfl (by decide) (by decide)
  exact ⟨(h.1 [" Hi ", ":"]).trans (by decide), h.2⟩

/-- C10 (implicit): a response with the right count whose k-th item is null or
lacks its translation string raises no error; the reconciler writes the empty
string at the corresponding sent fragment's position. -/
theorem null_response_items_yield_empty
    (paragraphs : List (List String)) (resp : WResponse)
    (d : WRespData) (raw : List (Option WRespItem)) (i k : Nat)
    (hcode : resp.code = "S000000") (hdata : resp.data = some d)
    (htexts : d.texts = some raw)
    (hcount : raw.length = (textsForApi paragraphs.flatten).length)
    (hi : i < paragraphs.flatten.length)
    (hinc : isExcludedFragment (paragraphs.flatten.getD i "") = false)
    (hk : includedCount (paragraphs.flatten.take i) = k)
    (hnull : raw.getD k none = none ∨
      ∃ item, raw.getD k none = some item ∧ item.translation = none) :
    webpageTranslate paragraphs true resp =
        .ok (renestTranslations paragraphs
          (fullFlatTranslations paragraphs.flatten (raw.map itemTranslation))) ∧
      (((renestTranslations paragraphs
          (fullFlatTranslations paragraphs.flatten (raw.map itemTranslation))).map
            FinalResultItem.translations).flatten).getD i "" = "" := by
  refine ⟨webpageTranslate_eq_ok paragraphs resp d raw hcode hdata htexts hcount, ?_⟩
  have hlen : (fullFlatTranslations paragraphs.flatten
      (raw.map itemTranslation)).length = (paragraphs.map List.length).sum := by
    rw [fullFlatTranslations_length]
    exact List.length_flatten paragraphs
  rw [renestTranslations_flatten paragraphs _ hlen,
    fullFlatTranslations_getD _ _ i hi,
    if_neg (by rw [hinc]; exact Bool.false_ne_true), hk,
    map_itemTranslation_getD raw k]
  rcases hnull with hn | ⟨item, hit, htr⟩
  · rw [hn]; rfl
  · rw [hit]
    simp [itemTranslation, htr]

theorem null_response_items_yield_empty_witness :
    webpageTranslate [["Hello", "World"]] true
        ⟨"S000000", some ⟨some [some ⟨"0-0", some "X"⟩, none], "en", "fr"⟩, none⟩ =
        .ok [⟨["X", ""]⟩] ∧
      ((([⟨["X", ""]⟩] : List FinalResultItem).map
          FinalResultItem.translations).flatten).getD 1 "" = "" := by
  have h := null_response_items_yield_empty [["Hello", "World"]]
    ⟨"S000000", some ⟨some [some ⟨"0-0", some "X"⟩, none], "en", "fr"⟩, none⟩
    ⟨some [some ⟨"0-0", some "X"⟩, none], "en", "fr"⟩
    [some ⟨"0-0", some "X"⟩, none] 1 1
    rfl rfl rfl (by decide) (by decide) (by decide) (by decide) (Or.inl (by decide))
  refine ⟨h.1.trans (by decide), ?_⟩
  have h2 := h.2
  rw [show renestTranslations [["Hello", "World"]]
      (fullFlatTranslations ([["Hello", "World"]] : List (List String)).flatten
        (([some ⟨"0-0", some "X"⟩, none] : List (Option WRespItem)).map
          itemTranslation)) = [⟨["X", ""]⟩] from by decide] at h2
  exact h2

/-- C2: a fragment is excluded from the batch if and only if, after trimming,
it is empty or shorter than 3 characters with no ASCII letter and no CJK
ideograph (the spec's rule, stated as `specFragmentExcluded`); all other
fragments are included in original order (the recorded original indices are
strictly increasing), and membership among the sent indices is exactly the
negation of the exclusion rule.  The rule is a pure function of the fragment,
so it is deterministic and has no side effects. -/
theorem fragment_filter_exclusion_rule :
    (∀ content : String,
        isExcludedFragment content = true ↔ specFragmentExcluded content) ∧
      (∀ fl : List String, (validContentIndices fl).Pairwise (· < ·)) ∧
      (∀ (fl : List String) (i : Nat),
        i ∈ validContentIndices fl ↔
          i < fl.length ∧ isExcludedFragment (fl.getD i "") = false) := by
  refine ⟨?_, fun fl => buildApiTexts_snd_sorted fl 0, validContentIndices_mem⟩
  intro content
  unfold isExcludedFragment specFragmentExcluded isPurePunctuationOrShort
    hasLetterOrCJK isLetterOrCJKChar
  simp only [Bool.or_eq_true, Bool.and_eq_true, Bool.not_eq_true',
    Bool.not_eq_true, beq_iff_eq, beq_eq_false_iff_ne, decide_eq_true_eq,
    List.any_eq_false, Bool.or_eq_false_iff]
  constructor
  · rintro (h0 | ⟨⟨hne, hall⟩, hlt⟩)
    · exact Or.inl (string_eq_empty_of_length h0)
    · refine Or.inr ⟨hlt, fun c hc => ?_⟩
      exact ⟨Bool.eq_false_iff.mpr fun hA => hall c hc (Or.inl hA),
        Bool.eq_false_iff.mpr fun hB => hall c hc (Or.inr hB)⟩
  · rintro (h0 | ⟨hlt, hall⟩)
    · refine Or.inl ?_
      rw [h0]
      rfl
    · by_cases h0' : (jsTrimStr content).length = 0
      · exact Or.inl h0'
      · refine Or.inr ⟨⟨h0', fun c hc hor => ?_⟩, hlt⟩
        exact hor.elim
          (fun h => absurd h (by rw [(hall c hc).1]; exact Bool.false_ne_true))
          (fun h => absurd h (by rw [(hall c hc).2]; exact Bool.false_ne_true))

/-- C4: the fallback re-request happens exactly when the caller pinned neither
language, the first response echoes its target as the detected source, and the
two preferred languages differ; at most one retry ever occurs, whatever the
responses are; the second request targets the second preferred language; and
an explicitly supplied target language rules the fallback out. -/
theorem single_translate_fallback_conditions
    (langCode : String → Option String) (tcv : String) (pbcv : JsonVal)
    (p : SingleParams) (resp1 resp2 : SingleResponse) (d1 : SingleRespData)
    (hcode : resp1.code = "S000000") (hdata : resp1.data = some d1)
    (hfrom : (langCode (resolvedFrom p)).isSome = true)
    (hto : (langCode (resolvedTo p)).isSome = true) :
    ((singleTranslate langCode tcv pbcv p resp1 resp2).1.length = 2 ↔
        (p.toLang = "" ∧ p.fromLang = "" ∧
          d1.sourceLanguage = d1.targetLanguage ∧
          p.preferredLanguage ≠ p.secondPreferredLanguage)) ∧
      (∀ r1 r2 : SingleResponse,
        (singleTranslate langCode tcv pbcv p r1 r2).1.length ≤ 2) ∧
      ((singleTranslate langCode tcv pbcv p resp1 resp2).1.length = 2 →
        ((singleTranslate langCode tcv pbcv p resp1 resp2).1.getD 1
            (mkFirstRequest langCode tcv pbcv p)).targetLanguage =
          langCode p.secondPreferredLanguage) ∧
      (p.toLang ≠ "" →
        (singleTranslate langCode tcv pbcv p resp1 resp2).1.length = 1) := by
  have ht := singleTranslate_trace langCode tcv pbcv p resp1 resp2 d1
    hcode hdata hfrom hto
  by_cases hrc : retryCondition p d1 = true
  · rw [if_pos hrc] at ht
    refine ⟨?_, fun r1 r2 => singleTranslate_trace_le langCode tcv pbcv p r1 r2,
      ?_, ?_⟩
    · rw [ht]
      exact ⟨fun _ => (retryCondition_iff p d1).mp hrc, fun _ => rfl⟩
    · intro _
      rw [ht]
      rfl
    · intro hto'
      exact absurd ((retryCondition_iff p d1).mp hrc).1 hto'
  · rw [if_neg hrc] at ht
    refine ⟨?_, fun r1 r2 => singleTranslate_trace_le langCode tcv pbcv p r1 r2,
      ?_, ?_⟩
    · rw [ht]
      constructor
      · intro h
        simp at h
      · intro hconds
        exact absurd ((retryCondition_iff p d1).mpr hconds) hrc
    · intro h2
      rw [ht] at h2
      simp at h2
    · intro _
      rw [ht]
      rfl

theorem single_translate_fallback_conditions_witness :
    (singleTranslate
        (fun s => if s == "en" || s == "fr" || s == "auto" then some s else none)
        "" (JsonVal.num 0) ⟨"A", "", "", "en", "fr"⟩
        ⟨"S000000", some ⟨"en", "en", [⟨"0-0", "A1"⟩]⟩, none⟩
        ⟨"S000000", some ⟨"en", "fr", [⟨"0-0", "A2"⟩]⟩, none⟩).1.length = 2 :=
  (single_translate_fallback_conditions
    (fun s => if s == "en" || s == "fr" || s == "auto" then some s else none)
    "" (JsonVal.num 0) ⟨"A", "", "", "en", "fr"⟩
    ⟨"S000000", some ⟨"en", "en", [⟨"0-0", "A1"⟩]⟩, none⟩
    ⟨"S000000", some ⟨"en", "fr", [⟨"0-0", "A2"⟩]⟩, none⟩
    ⟨"en", "en", [⟨"0-0", "A1"⟩]⟩ rfl rfl (by decide) (by decide)).1.mpr
    ⟨rfl, rfl, rfl, by decide⟩

/-- C8: when the fallback fires, the second request body agrees with the
first on `texts`, `translatorCode` and `promptBuilderCode`, and its
`targetLanguage` is the language table's entry for the second preferred
language. -/
theorem fallback_request_body
    (langCode : String → Option String) (tcv : String) (pbcv : JsonVal)
    (p : SingleParams) (resp1 resp2 : SingleResponse) (d1 : SingleRespData)
    (hcode : resp1.code = "S000000") (hdata : resp1.data = some d1)
    (hfrom : (langCode (resolvedFrom p)).isSome = true)
    (hto : (langCode (resolvedTo p)).isSome = true)
    (hretry : retryCondition p d1 = true) :
    (singleTranslate langCode tcv pbcv p resp1 resp2).1 =
        [mkFirstRequest langCode tcv pbcv p,
         { mkFirstRequest langCode tcv pbcv p with
             targetLanguage := langCode p.secondPreferredLanguage }] ∧
      (∀ r1 r2 : SingleFetchJSON,
        (singleTranslate langCode tcv pbcv p resp1 resp2).1 = [r1, r2] →
          r2.texts = r1.texts ∧ r2.translatorCode = r1.translatorCode ∧
            r2.promptBuilderCode = r1.promptBuilderCode ∧
            r2.targetLanguage = langCode p.secondPreferredLanguage) := by
  have ht := singleTranslate_trace langCode tcv pbcv p resp1 resp2 d1
    hcode hdata hfrom hto
  rw [if_pos hretry] at ht
  refine ⟨ht, ?_⟩
  intro r1 r2 h
  rw [ht] at h
  injection h with h1 h'
  injection h' with h2 h3
  subst h1
  subst h2
  exact ⟨rfl, rfl, rfl, rfl⟩

theorem fallback_request_body_witness :
    (singleTranslate
        (fun s => if s == "en" || s == "fr" || s == "auto" then some s else none)
        "" (JsonVal.num 0) ⟨"A", "", "", "en", "fr"⟩
        ⟨"S000000", some ⟨"en", "en", [⟨"0-0", "A1"⟩]⟩, none⟩
        ⟨"S000000", some ⟨"en", "fr", [⟨"0-0", "A2"⟩]⟩, none⟩).1 =
      [⟨some "en", "", JsonVal.num 0, [⟨"0-0", "A"⟩]⟩,
       ⟨some "fr", "", JsonVal.num 0, [⟨"0-0", "A"⟩]⟩] :=
  ((fallback_request_body
    (fun s => if s == "en" || s == "fr" || s == "auto" then some s else none)
    "" (JsonVal.num 0) ⟨"A", "", "", "en", "fr"⟩
    ⟨"S000000", some ⟨"en", "en", [⟨"0-0", "A1"⟩]⟩, none⟩
    ⟨"S000000", some ⟨"en", "fr", [⟨"0-0", "A2"⟩]⟩, none⟩
    ⟨"en", "en", [⟨"0-0", "A1"⟩]⟩ rfl rfl (by decide) (by decide)
    (by decide)).1).trans (by decide)

theorem breakAtFirst_eq_none {cs : List Char} (h : ('?' : Char) ∉ cs) :
    breakAtFirst '?' cs = none := by
  induction cs with
  | nil => rfl
  | cons c cs ih =>
    rw [List.mem_cons, not_or] at h
    unfold breakAtFirst
    rw [if_neg (fun hc => h.1 hc.symm), ih h.2]
    rfl

theorem extractedParams_eq_nil (decodeFn : String → String) (u : String)
    (h : ('?' : Char) ∉ u.data) : extractedParams decodeFn u = [] := by
  unfold extractedParams queryStringOf
  rw [breakAtFirst_eq_none h]
  rfl

/-- C7 (counterexample): for an endpoint URL with no query string, the
single-text translate's `translatorCodeValue` (`extractedParams['tc'] || ''`,
lines 62-70) is the empty string — not `0` in any rendering — while the
webpage builder does default the code to `0`; so "each code defaults to 0"
fails for the single-text extraction. -/
theorem single_code_default_counterexample :
    singleTranslatorCode (fun s => s) "https://api.example.com/translate" = "" ∧
      ("" : String) ≠ "0" ∧
      webTranslatorCodeValue (fun s => s) "https://api.example.com/translate" = 0 := by
  decide

theorem splitOnChar_sep_cons (sep : Char) (cs : List Char) :
    splitOnChar sep (sep :: cs) = [] :: splitOnChar sep cs := by
  rw [splitOnChar]
  rw [if_pos rfl]

theorem splitOnChar_no_sep {sep : Char} : ∀ {xs : List Char}, sep ∉ xs →
    splitOnChar sep xs = [xs]
  | [], _ => rfl
  | c :: cs, h => by
    rw [List.mem_cons, not_or] at h
    rw [splitOnChar]
    rw [if_neg (fun hc => h.1 hc.symm), splitOnChar_no_sep h.2]

theorem splitOnChar_append_sep {sep : Char} : ∀ {xs : List Char} (ys : List Char),
    sep ∉ xs → splitOnChar sep (xs ++ sep :: ys) = xs :: splitOnChar sep ys
  | [], ys, _ => splitOnChar_sep_cons sep ys
  | c :: cs, ys, h => by
    rw [List.mem_cons, not_or] at h
    have hr := splitOnChar_append_sep ys h.2
    rw [List.cons_append, splitOnChar]
    rw [if_neg (fun hc => h.1 hc.symm), hr]

theorem breakAtFirst_append {sep : Char} : ∀ {xs : List Char} (ys : List Char),
    sep ∉ xs → breakAtFirst sep (xs ++ sep :: ys) = some (xs, ys)
  | [], ys, _ => by
    rw [List.nil_append, breakAtFirst, if_pos rfl]
  | c :: cs, ys, h => by
    rw [List.mem_cons, not_or] at h
    rw [List.cons_append, breakAtFirst, if_neg (fun hc => h.1 hc.symm),
      breakAtFirst_append ys h.2]
    rfl

theorem queryStringOf_append (base qs : String)
    (h : ('?' : Char) ∉ base.data) :
    queryStringOf (base ++ "?" ++ qs) = some qs := by
  have hdata : (base ++ "?" ++ qs).data = base.data ++ '?' :: qs.data := by
    show base.data ++ ("?" : String).data ++ qs.data = base.data ++ '?' :: qs.data
    rw [show ("?" : String).data = ['?'] from by decide, List.append_assoc,
      List.singleton_append]
  unfold queryStringOf
  rw [hdata, breakAtFirst_append qs.data h]
  rfl

theorem extractedParams_append (decodeFn : String → String) (base qs : String)
    (h : ('?' : Char) ∉ base.data) :
    extractedParams decodeFn (base ++ "?" ++ qs) = parseQueryPairs decodeFn qs := by
  unfold extractedParams
  rw [queryStringOf_append base qs h]

theorem parseQueryPairs_single (decodeFn : String → String) (nm v : String)
    (hnm : nm.data ≠ [])
    (hnmc : ∀ c ∈ nm.data, c ≠ '&' ∧ c ≠ '=')
    (hv : ∀ c ∈ v.data, c ≠ '&' ∧ c ≠ '=') :
    parseQueryPairs decodeFn (nm ++ "=" ++ v) = [(decodeFn nm, decodeFn v)] := by
  have hdata : (nm ++ "=" ++ v).data = nm.data ++ '=' :: v.data := by
    show nm.data ++ ("=" : String).data ++ v.data = nm.data ++ '=' :: v.data
    rw [show ("=" : String).data = ['='] from by decide, List.append_assoc,
      List.singleton_append]
  have hamp : ('&' : Char) ∉ nm.data ++ '=' :: v.data := by
    intro hm
    rcases List.mem_append.mp hm with hm | hm
    · exact (hnmc _ hm).1 rfl
    · rcases List.mem_cons.mp hm with hm | hm
      · exact absurd hm (by decide)
      · exact (hv _ hm).1 rfl
  unfold parseQueryPairs
  rw [hdata, splitOnChar_no_sep hamp, List.filterMap_cons, List.filterMap_nil]
  rw [splitOnChar_append_sep _ (fun hm => (hnmc _ hm).2 rfl),
    splitOnChar_no_sep (fun hm => (hv _ hm).2 rfl)]
  dsimp only
  rw [if_neg hnm]
  rfl

theorem parseQueryPairs_amp_append (decodeFn : String → String) (p rest : String)
    (hp : ('&' : Char) ∉ p.data) :
    parseQueryPairs decodeFn (p ++ "&" ++ rest) =
      parseQueryPairs decodeFn p ++ parseQueryPairs decodeFn rest := by
  have hdata : (p ++ "&" ++ rest).data = p.data ++ '&' :: rest.data := by
    show p.data ++ ("&" : String).data ++ rest.data = p.data ++ '&' :: rest.data
    rw [show ("&" : String).data = ['&'] from by decide, List.append_assoc,
      List.singleton_append]
  unfold parseQueryPairs
  rw [hdata, splitOnChar_append_sep _ hp, splitOnChar_no_sep hp,
    show (p.data :: splitOnChar '&' rest.data) =
      [p.data] ++ splitOnChar '&' rest.data from rfl,
    List.filterMap_append]

/-- C7 (amended): the connection parameters come from the configured URL's
query string (everything after the first `?`): for a URL whose query string is
`key=<tok>&tc=<tc>&pbc=<pbc>` the extracted map is exactly those three
decoded pairs — the token is read from `key` and the codes from `tc` and
`pbc`, the webpage builder parsing its codes with `parseInt` after stripping
double quotes and the single-text translate keeping them as raw values; a
query string that lacks those keys, or a URL with no query string at all,
yields the empty token, webpage codes `0`, a single-text translator code of
the empty string and a single-text prompt-builder code of the number `0`; and
the Authorization credential equals the token prefixed with `"Bearer "`
unless the token already starts with `"Bearer "`. -/
theorem connection_params_extraction :
    (∀ (decodeFn : String → String) (base qs : String), ('?' : Char) ∉ base.data →
      extractedParams decodeFn (base ++ "?" ++ qs) = parseQueryPairs decodeFn qs) ∧
      (∀ (decodeFn : String → String) (base tok tcv pbcv : String),
        ('?' : Char) ∉ base.data →
        (∀ c ∈ tok.data, c ≠ '&' ∧ c ≠ '=') →
        (∀ c ∈ tcv.data, c ≠ '&' ∧ c ≠ '=') →
        (∀ c ∈ pbcv.data, c ≠ '&' ∧ c ≠ '=') →
        decodeFn "key" = "key" → decodeFn "tc" = "tc" → decodeFn "pbc" = "pbc" →
        extractedParams decodeFn (base ++ "?" ++
            (("key=" ++ tok) ++ "&" ++ (("tc=" ++ tcv) ++ "&" ++ ("pbc=" ++ pbcv)))) =
          [("key", decodeFn tok), ("tc", decodeFn tcv), ("pbc", decodeFn pbcv)] ∧
        webAuthToken decodeFn (base ++ "?" ++
            (("key=" ++ tok) ++ "&" ++ (("tc=" ++ tcv) ++ "&" ++ ("pbc=" ++ pbcv)))) =
          decodeFn tok ∧
        singleAuthToken decodeFn (base ++ "?" ++
            (("key=" ++ tok) ++ "&" ++ (("tc=" ++ tcv) ++ "&" ++ ("pbc=" ++ pbcv)))) =
          decodeFn tok ∧
        singleTranslatorCode decodeFn (base ++ "?" ++
            (("key=" ++ tok) ++ "&" ++ (("tc=" ++ tcv) ++ "&" ++ ("pbc=" ++ pbcv)))) =
          decodeFn tcv ∧
        (decodeFn pbcv ≠ "" →
          singlePromptBuilderCode decodeFn (base ++ "?" ++
              (("key=" ++ tok) ++ "&" ++ (("tc=" ++ tcv) ++ "&" ++ ("pbc=" ++ pbcv)))) =
            JsonVal.str (decodeFn pbcv)) ∧
        (decodeFn tcv ≠ "" →
          webTranslatorCodeValue decodeFn (base ++ "?" ++
              (("key=" ++ tok) ++ "&" ++ (("tc=" ++ tcv) ++ "&" ++ ("pbc=" ++ pbcv)))) =
            (jsParseInt10 (stripQuotes (decodeFn tcv))).getD 0) ∧
        (decodeFn pbcv ≠ "" →
          webPromptBuilderCodeValue decodeFn (base ++ "?" ++
              (("key=" ++ tok) ++ "&" ++ (("tc=" ++ tcv) ++ "&" ++ ("pbc=" ++ pbcv)))) =
            (jsParseInt10 (stripQuotes (decodeFn pbcv))).getD 0)) ∧
      (∀ (decodeFn : String → String) (base v : String),
        ('?' : Char) ∉ base.data →
        (∀ c ∈ v.data, c ≠ '&' ∧ c ≠ '=') →
        decodeFn "org" = "org" →
        webAuthToken decodeFn (base ++ "?" ++ ("org=" ++ v)) = "" ∧
        webTranslatorCodeValue decodeFn (base ++ "?" ++ ("org=" ++ v)) = 0 ∧
        webPromptBuilderCodeValue decodeFn (base ++ "?" ++ ("org=" ++ v)) = 0 ∧
        singleAuthToken decodeFn (base ++ "?" ++ ("org=" ++ v)) = "" ∧
        singleTranslatorCode decodeFn (base ++ "?" ++ ("org=" ++ v)) = "" ∧
        singlePromptBuilderCode decodeFn (base ++ "?" ++ ("org=" ++ v)) =
          JsonVal.num 0) ∧
      (∀ (decodeFn : String → String) (u : String), ('?' : Char) ∉ u.data →
        webAuthToken decodeFn u = "" ∧ webTranslatorCodeValue decodeFn u = 0 ∧
          webPromptBuilderCodeValue decodeFn u = 0 ∧
          singleAuthToken decodeFn u = "" ∧ singleTranslatorCode decodeFn u = "" ∧
          singlePromptBuilderCode decodeFn u = JsonVal.num 0) ∧
      (∀ token : String,
        (jsStartsWith token "Bearer " = true →
          authorizationHeaderValue token = token) ∧
        (jsStartsWith token "Bearer " = false →
          authorizationHeaderValue token = "Bearer " ++ token)) := by
  refine ⟨fun decodeFn base qs h => extractedParams_append decodeFn base qs h,
    ?_, ?_, ?_, ?_⟩
  · intro decodeFn base tok tcv pbcv hbase htok htc hpbc hk ht hp
    have hqk : ('&' : Char) ∉ ("key=" ++ tok).data := by
      intro hm
      have hm' : ('&' : Char) ∈ "key=".data ++ tok.data := hm
      rcases List.mem_append.mp hm' with hm2 | hm2
      · exact absurd hm2 (by decide)
      · exact (htok _ hm2).1 rfl
    have hqt : ('&' : Char) ∉ ("tc=" ++ tcv).data := by
      intro hm
      have hm' : ('&' : Char) ∈ "tc=".data ++ tcv.data := hm
      rcases List.mem_append.mp hm' with hm2 | hm2
      · exact absurd hm2 (by decide)
      · exact (htc _ hm2).1 rfl
    have hparse : parseQueryPairs decodeFn
        (("key=" ++ tok) ++ "&" ++ (("tc=" ++ tcv) ++ "&" ++ ("pbc=" ++ pbcv))) =
        [("key", decodeFn tok), ("tc", decodeFn tcv), ("pbc", decodeFn pbcv)] := by
      rw [parseQueryPairs_amp_append decodeFn _ _ hqk,
        parseQueryPairs_amp_append decodeFn _ _ hqt,
        show ("key=" : String) = "key" ++ "=" from by decide,
        show ("tc=" : String) = "tc" ++ "=" from by decide,
        show ("pbc=" : String) = "pbc" ++ "=" from by decide,
        parseQueryPairs_single decodeFn "key" tok (by decide) (by decide) htok,
        parseQueryPairs_single decodeFn "tc" tcv (by decide) (by decide) htc,
        parseQueryPairs_single decodeFn "pbc" pbcv (by decide) (by decide) hpbc,
        hk, ht, hp]
      rfl
    have hep : extractedParams decodeFn (base ++ "?" ++
        (("key=" ++ tok) ++ "&" ++ (("tc=" ++ tcv) ++ "&" ++ ("pbc=" ++ pbcv)))) =
        [("key", decodeFn tok), ("tc", decodeFn tcv), ("pbc", decodeFn pbcv)] := by
      rw [extractedParams_append decodeFn _ _ hbase, hparse]
    have hltok : lookupParam
        [("key", decodeFn tok), ("tc", decodeFn tcv), ("pbc", decodeFn pbcv)]
        "key" = decodeFn tok := rfl
    have hltc : lookupParam
        [("key", decodeFn tok), ("tc", decodeFn tcv), ("pbc", decodeFn pbcv)]
        "tc" = decodeFn tcv := rfl
    have hlpbc : lookupParam
        [("key", decodeFn tok), ("tc", decodeFn tcv), ("pbc", decodeFn pbcv)]
        "pbc" = decodeFn pbcv := rfl
    refine ⟨hep, ?_, ?_, ?_, ?_, ?_, ?_⟩
    · rw [webAuthToken, hep, hltok]
    · rw [singleAuthToken, hep, hltok]
    · rw [singleTranslatorCode, hep, hltc]
    · intro hne
      rw [singlePromptBuilderCode, hep]
      rw [hlpbc, if_neg (fun hb => hne (eq_of_beq hb))]
    · intro hne
      rw [webTranslatorCodeValue, webRawTranslatorCode, hep]
      rw [hltc, if_neg (fun hb => hne (eq_of_beq hb))]
    · intro hne
      rw [webPromptBuilderCodeValue, webRawPromptBuilderCode, hep]
      rw [hlpbc, if_neg (fun hb => hne (eq_of_beq hb))]
  · intro decodeFn base v hbase hv horg
    have hep : extractedParams decodeFn (base ++ "?" ++ ("org=" ++ v)) =
        [("org", decodeFn v)] := by
      rw [extractedParams_append decodeFn _ _ hbase,
        show ("org=" : String) = "org" ++ "=" from by decide,
        parseQueryPairs_single decodeFn "org" v (by decide) (by decide) hv, horg]
    refine ⟨?_, ?_, ?_, ?_, ?_, ?_⟩
    · rw [webAuthToken, hep]
      rfl
    · rw [webTranslatorCodeValue, webRawTranslatorCode, hep]
      rfl
    · rw [webPromptBuilderCodeValue, webRawPromptBuilderCode, hep]
      rfl
    · rw [singleAuthToken, hep]
      rfl
    · rw [singleTranslatorCode, hep]
      rfl
    · rw [singlePromptBuilderCode, hep]
      rfl
  · intro decodeFn u hu
    have hep := extractedParams_eq_nil decodeFn u hu
    refine ⟨?_, ?_, ?_, ?_, ?_, ?_⟩
    · rw [webAuthToken, hep]
      rfl
    · rw [webTranslatorCodeValue, webRawTranslatorCode, hep]
      rfl
    · rw [webPromptBuilderCodeValue, webRawPromptBuilderCode, hep]
      rfl
    · rw [singleAuthToken, hep]
      rfl
    · rw [singleTranslatorCode, hep]
      rfl
    · rw [singlePromptBuilderCode, hep]
      rfl
  · intro token
    constructor
    · intro h
      rw [authorizationHeaderValue, if_pos h]
    · intro h
      rw [authorizationHeaderValue,
        if_neg (by rw [h]; exact Bool.false_ne_true)]

theorem connection_params_extraction_witness :
    extractedParams (fun s => s) ("https://api.example.com/translate" ++ "?" ++
        (("key=" ++ "abc") ++ "&" ++ (("tc=" ++ "2") ++ "&" ++ ("pbc=" ++ "3")))) =
      [("key", "abc"), ("tc", "2"), ("pbc", "3")] ∧
      webAuthToken (fun s => s) ("https://api.example.com/translate" ++ "?" ++
        (("key=" ++ "abc") ++ "&" ++ (("tc=" ++ "2") ++ "&" ++ ("pbc=" ++ "3")))) =
        "abc" ∧
      webTranslatorCodeValue (fun s => s) ("https://api.example.com/translate" ++ "?" ++
        (("key=" ++ "abc") ++ "&" ++ (("tc=" ++ "2") ++ "&" ++ ("pbc=" ++ "3")))) = 2 ∧
      singleTranslatorCode (fun s => s) ("https://api.example.com/translate" ++ "?" ++
        (("key=" ++ "abc") ++ "&" ++ (("tc=" ++ "2") ++ "&" ++ ("pbc=" ++ "3")))) =
        "2" ∧
      singlePromptBuilderCode (fun s => s) ("https://api.example.com/translate" ++ "?" ++
        (("key=" ++ "abc") ++ "&" ++ (("tc=" ++ "2") ++ "&" ++ ("pbc=" ++ "3")))) =
        JsonVal.str "3" ∧
      singleTranslatorCode (fun s => s)
        ("https://api.example.com/translate" ++ "?" ++ ("org=" ++ "x")) = "" ∧
      webTranslatorCodeValue (fun s => s)
        ("https://api.example.com/translate" ++ "?" ++ ("org=" ++ "x")) = 0 ∧
      webAuthToken (fun s => s) "https://api.example.com/translate" = "" ∧
      authorizationHeaderValue "abc" = "Bearer abc" ∧
      authorizationHeaderValue "Bearer xyz" = "Bearer xyz" := by
  have h := connection_params_extraction
  have hB := h.2.1 (fun s => s) "https://api.example.com/translate" "abc" "2" "3"
    (by decide) (by decide) (by decide) (by decide) rfl rfl rfl
  have hC := h.2.2.1 (fun s => s) "https://api.example.com/translate" "x"
    (by decide) (by decide) rfl
  have hD := h.2.2.2.1 (fun s => s) "https://api.example.com/translate" (by decide)
  exact ⟨hB.1, hB.2.1, (hB.2.2.2.2.2.1 (by decide)).trans (by decide),
    hB.2.2.2.1, hB.2.2.2.2.1 (by decide), hC.2.2.2.2.1, hC.2.1, hD.1,
    (h.2.2.2.2 "abc").2 (by decide), (h.2.2.2.2 "Bearer xyz").1 (by decide)⟩
